import Mathlib

/-!
Verification of the EXIF Make/Model parser: a shallow embedding of the
JPEG marker scanner (`getExifDeviceData`), the TIFF/IFD directory reader
(`parseExifChunk`) and the ASCII entry decoder (`getStringFromEntry`).

A byte buffer is modelled as `List Nat` (each element one byte).
`DataView` reads that can throw a `RangeError` are modelled in
`Except Unit`; the source's `try/catch` blocks become wrappers that map
any error to the absent result.  JavaScript strings are modelled as
lists of character codes (`JStr`), since the decoder builds them one
code unit at a time with `String.fromCharCode`.
-/

/-- A JavaScript string, as the list of its character codes. -/
abbrev JStr := List Nat

/-- The ECMAScript whitespace set used by `String.prototype.trim`. -/
def isJsWs (c : Nat) : Bool :=
  c == 0x09 || c == 0x0A || c == 0x0B || c == 0x0C || c == 0x0D ||
  c == 0x20 || c == 0xA0 || c == 0x1680 ||
  (decide (0x2000 ≤ c) && decide (c ≤ 0x200A)) ||
  c == 0x2028 || c == 0x2029 || c == 0x202F || c == 0x205F ||
  c == 0x3000 || c == 0xFEFF

/-- JavaScript `String.prototype.trim`: strip whitespace from both ends. -/
def jsTrim (l : JStr) : JStr :=
  (l.dropWhile isJsWs).rdropWhile isJsWs

/-- JavaScript `s.startsWith(q)`: does `s` begin with `q`? -/
def startsWithCodes : JStr → JStr → Bool
  | _, [] => true
  | [], _ :: _ => false
  | c :: s, d :: q => c == d && startsWithCodes s q

/-- `DataView.getUint8`: one byte, throwing when out of bounds. -/
def getUint8E (view : List Nat) (off : Nat) : Except Unit Nat :=
  match view.get? off with
  | some b => .ok b
  | none => .error ()

/-- `DataView.getUint16(off, littleEndian)`: two bytes assembled in the
requested byte order, throwing when out of bounds. -/
def getUint16E (view : List Nat) (off : Nat) (littleEndian : Bool) :
    Except Unit Nat :=
  match view.get? off, view.get? (off + 1) with
  | some b0, some b1 =>
      .ok (if littleEndian then b1 * 256 + b0 else b0 * 256 + b1)
  | _, _ => .error ()

/-- `DataView.getUint32(off, littleEndian)`: four bytes assembled in the
requested byte order, throwing when out of bounds. -/
def getUint32E (view : List Nat) (off : Nat) (littleEndian : Bool) :
    Except Unit Nat :=
  match view.get? off, view.get? (off + 1), view.get? (off + 2),
      view.get? (off + 3) with
  | some b0, some b1, some b2, some b3 =>
      .ok (if littleEndian then
             ((b3 * 256 + b2) * 256 + b1) * 256 + b0
           else
             ((b0 * 256 + b1) * 256 + b2) * 256 + b3)
  | _, _, _, _ => .error ()

/-- The character-copy loop of `getStringFromEntry`: for `i` below the
remaining `count`, stop at the buffer boundary or at the first NUL byte,
otherwise append the byte and continue. -/
def readAscii (view : List Nat) (offset : Nat) : Nat → Nat → JStr
  | 0, _ => []
  | n + 1, i =>
    match view.get? (offset + i) with
    | none => []
    | some c => if c = 0 then [] else c :: readAscii view offset n (i + 1)

/-- `getStringFromEntry(view, entryOffset, tiffStart, littleEndian)`:
read the entry's type and count, ignore non-ASCII (type ≠ 2) entries,
then decode the string either inline (count ≤ 4) at the value field
itself or at `tiffStart + valueOffset`. -/
def getStringFromEntry (view : List Nat) (entryOffset tiffStart : Nat)
    (littleEndian : Bool) : Except Unit JStr :=
  match getUint16E view (entryOffset + 2) littleEndian with
  | .error e => .error e
  | .ok type =>
    match getUint32E view (entryOffset + 4) littleEndian with
    | .error e => .error e
    | .ok count =>
      if type ≠ 2 then .ok []
      else
        match getUint32E view (entryOffset + 8) littleEndian with
        | .error e => .error e
        | .ok valueOffset =>
          let offset :=
            if count ≤ 4 then entryOffset + 8 else tiffStart + valueOffset
          .ok (readAscii view offset count 0)

/-- The IFD entry loop of `parseExifChunk`: walk the `n` remaining
12-byte entries starting at index `i`, overwriting the accumulated
`make` on tag 0x010F and `model` on tag 0x0110. -/
def ifdLoop (view : List Nat) (dirStart tiffStart : Nat)
    (littleEndian : Bool) : Nat → Nat → JStr → JStr →
    Except Unit (JStr × JStr)
  | 0, _, make, model => .ok (make, model)
  | n + 1, i, make, model =>
    let entryOffset := dirStart + 2 + i * 12
    match getUint16E view entryOffset littleEndian with
    | .error e => .error e
    | .ok tag =>
      if tag = 0x010F then
        match getStringFromEntry view entryOffset tiffStart littleEndian with
        | .error e => .error e
        | .ok s => ifdLoop view dirStart tiffStart littleEndian n (i + 1) s model
      else if tag = 0x0110 then
        match getStringFromEntry view entryOffset tiffStart littleEndian with
        | .error e => .error e
        | .ok s => ifdLoop view dirStart tiffStart littleEndian n (i + 1) make s
      else ifdLoop view dirStart tiffStart littleEndian n (i + 1) make model

/-- The result composition at the end of `parseExifChunk`: if either raw
string is non-empty, trim both; return the trimmed model alone when it
starts with the trimmed make, otherwise the trimmed concatenation with a
single space (code 32); with both raw strings empty, return null. -/
def composeDevice (make model : JStr) : Option JStr :=
  if make ≠ [] ∨ model ≠ [] then
    let cleanMake := jsTrim make
    let cleanModel := jsTrim model
    if startsWithCodes cleanModel cleanMake then some cleanModel
    else some (jsTrim (cleanMake ++ 32 :: cleanModel))
  else none

/-- The body of `parseExifChunk` after the byte-order read, with the
resolved endianness as a parameter: check the TIFF magic 0x002A, check
the first-IFD offset is at least 8, read the entry count and run the
entry loop, then compose the result. -/
def parseExifBody (view : List Nat) (tiffStart : Nat)
    (littleEndian : Bool) : Except Unit (Option JStr) :=
  match getUint16E view (tiffStart + 2) littleEndian with
  | .error e => .error e
  | .ok magic =>
    if magic ≠ 0x2A then .ok none
    else
      match getUint32E view (tiffStart + 4) littleEndian with
      | .error e => .error e
      | .ok firstIFDOffset =>
        if firstIFDOffset < 8 then .ok none
        else
          let dirStart := tiffStart + firstIFDOffset
          match getUint16E view dirStart littleEndian with
          | .error e => .error e
          | .ok entries =>
            match ifdLoop view dirStart tiffStart littleEndian entries 0 [] [] with
            | .error e => .error e
            | .ok (make, model) => .ok (composeDevice make model)

/-- `parseExifChunk` before its `catch`: read the 2-byte byte-order mark
big-endian; little-endian is selected exactly when it equals 0x4949
('II'), any other value leaves big-endian selected. -/
def parseExifChunkE (view : List Nat) (tiffStart : Nat) :
    Except Unit (Option JStr) :=
  match getUint16E view tiffStart false with
  | .error e => .error e
  | .ok byteOrder => parseExifBody view tiffStart (byteOrder == 0x4949)

/-- `parseExifChunk` as the caller sees it: its `try/catch` maps any
thrown error to the null result. -/
def parseExifChunk (view : List Nat) (tiffStart : Nat) : Option JStr :=
  match parseExifChunkE view tiffStart with
  | .ok r => r
  | .error _ => none

/-- The marker-scanning `while` loop of `getExifDeviceData`, still inside
the `try`: at each offset below the buffer length require a 0xFF byte,
dispatch on the marker code (0xE1 APP1 with Exif signature hands off to
`parseExifChunk` at `offset + 10`, non-Exif APP1 and other markers skip
`2 + chunkLength` bytes, 0xDA stops), and fall out with null. -/
def scanMarkers (view : List Nat) (offset : Nat) :
    Except Unit (Option JStr) :=
  if _h : offset < view.length then
    match getUint8E view offset with
    | .error e => .error e
    | .ok b =>
      if b ≠ 0xFF then .ok none
      else
        match getUint8E view (offset + 1) with
        | .error e => .error e
        | .ok marker =>
          if marker = 0xE1 then
            match getUint16E view (offset + 2) false with
            | .error e => .error e
            | .ok chunkLength =>
              match getUint32E view (offset + 4) false with
              | .error e => .error e
              | .ok sig =>
                if sig = 0x45786966 then
                  .ok (parseExifChunk view (offset + 10))
                else scanMarkers view (offset + 2 + chunkLength)
          else if marker = 0xDA then .ok none
          else
            match getUint16E view (offset + 2) false with
            | .error e => .error e
            | .ok chunkLength => scanMarkers view (offset + 2 + chunkLength)
  else .ok none
termination_by view.length - offset
decreasing_by all_goals (simp_wf; omega)

/-- Fuel-bounded variant of `scanMarkers`, identical except that it
returns `none` when the fuel runs out; used to express that the loop
terminates within a number of iterations linear in the buffer length. -/
def scanMarkersFuel : Nat → List Nat → Nat → Option (Except Unit (Option JStr))
  | 0, _, _ => none
  | fuel + 1, view, offset =>
    if offset < view.length then
      match getUint8E view offset with
      | .error e => some (.error e)
      | .ok b =>
        if b ≠ 0xFF then some (.ok none)
        else
          match getUint8E view (offset + 1) with
          | .error e => some (.error e)
          | .ok marker =>
            if marker = 0xE1 then
              match getUint16E view (offset + 2) false with
              | .error e => some (.error e)
              | .ok chunkLength =>
                match getUint32E view (offset + 4) false with
                | .error e => some (.error e)
                | .ok sig =>
                  if sig = 0x45786966 then
                    some (.ok (parseExifChunk view (offset + 10)))
                  else scanMarkersFuel fuel view (offset + 2 + chunkLength)
            else if marker = 0xDA then some (.ok none)
            else
              match getUint16E view (offset + 2) false with
              | .error e => some (.error e)
              | .ok chunkLength => scanMarkersFuel fuel view (offset + 2 + chunkLength)
    else some (.ok none)

/-- The `onload` body of `getExifDeviceData` before its `catch`: check
the JPEG SOI marker 0xFFD8 at offset 0, then scan markers from offset 2. -/
def getExifDeviceDataE (view : List Nat) : Except Unit (Option JStr) :=
  match getUint16E view 0 false with
  | .error e => .error e
  | .ok soi =>
    if soi ≠ 0xFFD8 then .ok none
    else scanMarkers view 2

/-- `getExifDeviceData` as the caller sees it: its `try/catch` maps any
thrown error to the null result. -/
def getExifDeviceData (view : List Nat) : Option JStr :=
  match getExifDeviceDataE view with
  | .ok r => r
  | .error _ => none

/-! ## Helper lemmas about `dropWhile` and `jsTrim` -/

/-- The head of a non-empty `dropWhile` result fails the predicate. -/
theorem dropWhile_head_false {p : Nat → Bool} :
    ∀ {l : List Nat} {c : Nat} {t : List Nat},
      l.dropWhile p = c :: t → p c = false := by
  intro l
  induction l with
  | nil => intro c t h; simp [List.dropWhile] at h
  | cons d l ih =>
    intro c t h
    rw [List.dropWhile_cons] at h
    by_cases hd : p d
    · rw [if_pos hd] at h; exact ih h
    · rw [if_neg hd] at h
      cases h
      simpa using hd

/-- A non-empty `dropWhile` fixed point stays fixed under appending. -/
theorem dropWhile_fix_append {p : Nat → Bool} {a : JStr} (b : JStr)
    (hfix : a.dropWhile p = a) (hne : a ≠ []) :
    (a ++ b).dropWhile p = a ++ b := by
  cases a with
  | nil => exact absurd rfl hne
  | cons c t =>
    have hc : p c = false := dropWhile_head_false hfix
    simp [List.dropWhile_cons, hc]

/-- A trimmed string has no trailing whitespace (its reverse is a
`dropWhile` fixed point). -/
theorem jsTrim_reverse_fix (l : JStr) :
    ((jsTrim l).reverse).dropWhile isJsWs = (jsTrim l).reverse := by
  have h : List.rdropWhile isJsWs (jsTrim l) = jsTrim l := by
    unfold jsTrim
    exact List.rdropWhile_idempotent _ _
  have h2 := congrArg List.reverse h
  rwa [List.rdropWhile, List.reverse_reverse] at h2

/-- A trimmed string has no leading whitespace (it is a `dropWhile`
fixed point). -/
theorem jsTrim_fix (l : JStr) : (jsTrim l).dropWhile isJsWs = jsTrim l := by
  have hx : (l.dropWhile isJsWs).dropWhile isJsWs = l.dropWhile isJsWs :=
    List.dropWhile_idempotent _ _
  obtain ⟨u, hu⟩ := List.dropWhile_suffix (l := (l.dropWhile isJsWs).reverse) isJsWs
  have hdecomp : l.dropWhile isJsWs = jsTrim l ++ u.reverse := by
    have h2 := congrArg List.reverse hu
    rw [List.reverse_append, List.reverse_reverse] at h2
    rw [jsTrim, List.rdropWhile]
    exact h2.symm
  cases hj : jsTrim l with
  | nil => simp
  | cons c t =>
    have hx2 : (l.dropWhile isJsWs).dropWhile isJsWs = c :: (t ++ u.reverse) := by
      rw [hx, hdecomp, hj]; rfl
    have hc : isJsWs c = false := dropWhile_head_false hx2
    simp [List.dropWhile_cons, hc]

/-- Trimming a space-separated concatenation of two trimmed, non-empty
strings is the identity. -/
theorem jsTrim_append_sep (a b : JStr) (ha : a.dropWhile isJsWs = a)
    (hnea : a ≠ []) (hb : b.reverse.dropWhile isJsWs = b.reverse)
    (hneb : b ≠ []) : jsTrim (a ++ 32 :: b) = a ++ 32 :: b := by
  unfold jsTrim
  rw [dropWhile_fix_append _ ha hnea]
  have hrev : (a ++ 32 :: b).reverse = b.reverse ++ (32 :: a.reverse) := by
    rw [List.reverse_append, List.reverse_cons, List.append_assoc]
    rfl
  rw [List.rdropWhile, hrev,
    dropWhile_fix_append _ hb (by simpa using hneb), ← hrev,
    List.reverse_reverse]

/-- Trimming a trimmed non-empty string followed by a single trailing
space gives back the string. -/
theorem jsTrim_append_space (a : JStr) (ha : a.dropWhile isJsWs = a)
    (har : a.reverse.dropWhile isJsWs = a.reverse) (hnea : a ≠ []) :
    jsTrim (a ++ 32 :: []) = a := by
  unfold jsTrim
  rw [dropWhile_fix_append _ ha hnea]
  have hrev : (a ++ 32 :: ([] : JStr)).reverse = 32 :: a.reverse := by
    rw [List.reverse_append, List.reverse_cons]
    rfl
  rw [List.rdropWhile, hrev, List.dropWhile_cons,
    if_pos (by decide : isJsWs 32 = true), har, List.reverse_reverse]

/-- `startsWithCodes` with an empty pattern is always true. -/
theorem startsWithCodes_nil (s : JStr) : startsWithCodes s [] = true := by
  cases s <;> rfl

/-- The copy loop of `getStringFromEntry` returns exactly the bytes of
the buffer from `offset + i`, at most the remaining count of them,
up to the first NUL. -/
theorem readAscii_eq (view : List Nat) (offset : Nat) :
    ∀ (n i : Nat), readAscii view offset n i =
      ((view.drop (offset + i)).take n).takeWhile (fun c => c != 0) := by
  intro n
  induction n with
  | zero => intro i; simp [readAscii]
  | succ n ih =>
    intro i
    unfold readAscii
    cases hg : view.get? (offset + i) with
    | none =>
      have hd : view.drop (offset + i) = [] :=
        List.drop_eq_nil_iff.mpr (List.get?_eq_none.mp hg)
      simp [hd]
    | some c =>
      obtain ⟨hlt, hget⟩ := List.get?_eq_some.mp hg
      have hd : view.drop (offset + i) = c :: view.drop (offset + i + 1) := by
        rw [List.drop_eq_getElem_cons hlt]
        simp [← hget, List.get_eq_getElem]
      rw [hd]
      by_cases hc : c = 0
      · simp [hc, List.takeWhile]
      · have hct : (c != 0) = true := by simpa using hc
        have hih := ih (i + 1)
        rw [show offset + (i + 1) = offset + i + 1 by omega] at hih
        simp [hc, List.takeWhile, hct, hih]

/-! ## Concrete buffers used as counterexamples and witnesses -/

/-- A TIFF structure (at offset 0) whose byte-order mark is 0x0000,
neither 'II' nor 'MM', followed by a valid big-endian header and a
one-entry IFD holding Make = "AB". -/
def bufBadOrder : List Nat :=
  [0x00, 0x00, 0x00, 0x2A, 0x00, 0x00, 0x00, 0x08,
   0x00, 0x01,
   0x01, 0x0F, 0x00, 0x02, 0x00, 0x00, 0x00, 0x03, 0x41, 0x42, 0x00, 0x00]

/-- A big-endian TIFF structure (at offset 0) whose IFD holds two Make
entries: the first decodes to "AB", the second to "CD". -/
def bufTwoMakes : List Nat :=
  [0x4D, 0x4D, 0x00, 0x2A, 0x00, 0x00, 0x00, 0x08,
   0x00, 0x02,
   0x01, 0x0F, 0x00, 0x02, 0x00, 0x00, 0x00, 0x03, 0x41, 0x42, 0x00, 0x00,
   0x01, 0x0F, 0x00, 0x02, 0x00, 0x00, 0x00, 0x03, 0x43, 0x44, 0x00, 0x00]

/-- A JPEG buffer: SOI, then a non-Exif APP1 (signature "XXXX", length
8), then an Exif APP1 whose TIFF structure (little-endian, at offset 22)
holds Make = "AB". -/
def bufTwoApp1 : List Nat :=
  [0xFF, 0xD8,
   0xFF, 0xE1, 0x00, 0x08, 0x58, 0x58, 0x58, 0x58, 0x00, 0x00,
   0xFF, 0xE1, 0x00, 0x20, 0x45, 0x78, 0x69, 0x66, 0x00, 0x00,
   0x49, 0x49, 0x2A, 0x00, 0x08, 0x00, 0x00, 0x00,
   0x01, 0x00,
   0x0F, 0x01, 0x02, 0x00, 0x03, 0x00, 0x00, 0x00, 0x41, 0x42, 0x00, 0x00]

/-- A little-endian IFD entry at offset 0 with type 2 and count 3, whose
string "AB" is stored inline in the value field. -/
def bufInlineEntry : List Nat :=
  [0x00, 0x00, 0x02, 0x00, 0x03, 0x00, 0x00, 0x00, 0x41, 0x42, 0x00, 0x00]

/-- A big-endian IFD entry at offset 0 with type 2 and count 5, whose
value field points at offset 12 (relative to tiffStart 0) where the
bytes "ABCD" followed by NUL live. -/
def bufOffsetEntry : List Nat :=
  [0x00, 0x00, 0x00, 0x02, 0x00, 0x00, 0x00, 0x05, 0x00, 0x00, 0x00, 0x0C,
   0x41, 0x42, 0x43, 0x44, 0x00]

/-- A big-endian IFD entry at offset 0 with type 3 (not ASCII). -/
def bufNonAsciiEntry : List Nat :=
  [0x00, 0x00, 0x00, 0x03, 0x00, 0x00, 0x00, 0x01, 0x00, 0x00, 0x00, 0x00]

/-! ## C1: byte-order marker handling -/

/-- C1 counterexample: the byte-order marker of `bufBadOrder` reads as
0x0000, which is neither 0x4949 nor 0x4D4D, yet the directory reader
does not return "not found": it parses under default big-endianness and
returns the device string "AB". -/
theorem exif_c1_counterexample :
    getUint16E bufBadOrder 0 false = Except.ok 0 ∧
    (0 : Nat) ≠ 0x4949 ∧ (0 : Nat) ≠ 0x4D4D ∧
    parseExifChunk bufBadOrder 0 = some [0x41, 0x42] :=
  ⟨rfl, by decide, by decide, rfl⟩

/-- C1 amended: the 2-byte byte-order marker selects little-endian
exactly when it equals 0x4949 ('II'); any other value, 0x4D4D or not,
leaves big-endian selected and the reader proceeds to parse the TIFF
header under it. -/
theorem exif_c1_endianness_default (view : List Nat) (tiffStart bo : Nat)
    (h : getUint16E view tiffStart false = Except.ok bo) :
    (bo = 0x4949 →
      parseExifChunkE view tiffStart = parseExifBody view tiffStart true) ∧
    (bo ≠ 0x4949 →
      parseExifChunkE view tiffStart = parseExifBody view tiffStart false) := by
  unfold parseExifChunkE
  rw [h]
  constructor
  · intro hb
    subst hb
    rfl
  · intro hb
    have hbe : (bo == 0x4949) = false := by simpa using hb
    simp [hbe]

/-- C1 amended witness: on `bufBadOrder` the byte-order read succeeds
with 0x0000 and the reader proceeds under big-endian. -/
theorem exif_c1_endianness_default_witness :
    parseExifChunkE bufBadOrder 0 = parseExifBody bufBadOrder 0 false :=
  (exif_c1_endianness_default bufBadOrder 0 0 rfl).2 (by decide)

/-! ## C2: repeated Make/Model tags -/

/-- C2 counterexample: in `bufTwoMakes` the first Make entry decodes to
"AB" and the second to "CD"; the parse result is "CD", from the second
occurrence, so the first occurrence does not win. -/
theorem exif_c2_counterexample :
    getStringFromEntry bufTwoMakes 10 0 false = Except.ok [0x41, 0x42] ∧
    getStringFromEntry bufTwoMakes 22 0 false = Except.ok [0x43, 0x44] ∧
    parseExifChunk bufTwoMakes 0 = some [0x43, 0x44] ∧
    ([0x43, 0x44] : JStr) ≠ [0x41, 0x42] :=
  ⟨rfl, rfl, rfl, by decide⟩

/-- C2 amended: a successfully decoded Make (tag 0x010F) or Model (tag
0x0110) entry overwrites any previously stored value, so the last
occurrence of each tag wins: the loop continuation does not depend on
the value accumulated before the matching entry. -/
theorem exif_c2_last_occurrence_wins (view : List Nat)
    (dirStart tiffStart : Nat) (le : Bool) (n i : Nat)
    (make model s : JStr) :
    (getUint16E view (dirStart + 2 + i * 12) le = Except.ok 0x010F →
      getStringFromEntry view (dirStart + 2 + i * 12) tiffStart le =
        Except.ok s →
      ifdLoop view dirStart tiffStart le (n + 1) i make model =
        ifdLoop view dirStart tiffStart le n (i + 1) s model) ∧
    (getUint16E view (dirStart + 2 + i * 12) le = Except.ok 0x0110 →
      getStringFromEntry view (dirStart + 2 + i * 12) tiffStart le =
        Except.ok s →
      ifdLoop view dirStart tiffStart le (n + 1) i make model =
        ifdLoop view dirStart tiffStart le n (i + 1) make s) := by
  constructor <;> intro h1 h2 <;> simp [ifdLoop, h1, h2]

/-- C2 amended witness: at the second Make entry of `bufTwoMakes`, the
loop discards the previously accumulated "AB" and continues with "CD". -/
theorem exif_c2_last_occurrence_wins_witness :
    ifdLoop bufTwoMakes 8 0 false 1 1 [0x41, 0x42] [] =
      ifdLoop bufTwoMakes 8 0 false 0 2 [0x43, 0x44] [] :=
  (exif_c2_last_occurrence_wins bufTwoMakes 8 0 false 0 1
    [0x41, 0x42] [] [0x43, 0x44]).1 rfl rfl

/-! ## C3: faults collapse to absence -/

/-- C3: the parse is total; the `catch` wrappers of `getExifDeviceData`
and `parseExifChunk` normalize every thrown lower-level fault to the
absent result and pass successful results through unchanged, and a
buffer too short to hold the SOI marker parses to absence. -/
theorem exif_c3_faults_collapse (view : List Nat) (tiffStart : Nat) :
    (∀ e, getExifDeviceDataE view = Except.error e →
      getExifDeviceData view = none) ∧
    (∀ r, getExifDeviceDataE view = Except.ok r →
      getExifDeviceData view = r) ∧
    (∀ e, parseExifChunkE view tiffStart = Except.error e →
      parseExifChunk view tiffStart = none) ∧
    (∀ r, parseExifChunkE view tiffStart = Except.ok r →
      parseExifChunk view tiffStart = r) ∧
    (view.length < 2 → getExifDeviceData view = none) := by
  refine ⟨?_, ?_, ?_, ?_, ?_⟩
  · intro e h
    unfold getExifDeviceData
    rw [h]
  · intro r h
    unfold getExifDeviceData
    rw [h]
  · intro e h
    unfold parseExifChunk
    rw [h]
  · intro r h
    unfold parseExifChunk
    rw [h]
  · intro hlen
    have h1 : view[1]? = none := List.getElem?_eq_none (by omega)
    cases h0 : view[0]? <;>
      simp [getExifDeviceData, getExifDeviceDataE, getUint16E, h0, h1]

/-- C3 witness: the empty buffer makes the very first read throw, and
both caught parses return absence. -/
theorem exif_c3_faults_collapse_witness :
    getExifDeviceData [] = none ∧ parseExifChunk [] 0 = none :=
  ⟨(exif_c3_faults_collapse [] 0).1 () rfl,
   (exif_c3_faults_collapse [] 0).2.2.1 () rfl⟩

/-! ## C6: non-ASCII entries are ignored for string decoding -/

/-- C6: an IFD entry whose type field reads as anything other than 2
decodes to the empty string, contributing no string value. -/
theorem exif_c6_non_ascii_ignored (view : List Nat)
    (entryOffset tiffStart : Nat) (le : Bool) (t c : Nat)
    (ht : getUint16E view (entryOffset + 2) le = Except.ok t)
    (hne : t ≠ 2)
    (hc : getUint32E view (entryOffset + 4) le = Except.ok c) :
    getStringFromEntry view entryOffset tiffStart le = Except.ok [] := by
  unfold getStringFromEntry
  rw [ht, hc]
  simp [hne]

/-- C6 witness: the type-3 entry of `bufNonAsciiEntry` decodes to the
empty string. -/
theorem exif_c6_non_ascii_ignored_witness :
    getStringFromEntry bufNonAsciiEntry 0 0 false = Except.ok [] :=
  exif_c6_non_ascii_ignored bufNonAsciiEntry 0 0 false 3 1 rfl
    (by decide) rfl

/-! ## C10: presence is decided on the untrimmed strings -/

/-- C10: when at least one raw decoded string is non-empty but both trim
to the empty string, the composition returns a present empty string, not
absence. -/
theorem exif_c10_presence_untrimmed (make model : JStr)
    (h : make ≠ [] ∨ model ≠ []) (hm : jsTrim make = [])
    (hM : jsTrim model = []) : composeDevice make model = some [] := by
  unfold composeDevice
  rw [if_pos h]
  simp only [hm, hM]
  rw [if_pos (startsWithCodes_nil [])]

/-- C10 witness: a whitespace-only Make with no Model yields the present
empty string. -/
theorem exif_c10_presence_untrimmed_witness :
    composeDevice [0x20] [] = some [] :=
  exif_c10_presence_untrimmed [0x20] [] (Or.inl (by decide)) (by decide)
    (by decide)

/-! ## C5: inline vs. indirect string storage and bounds -/

/-- C5: for an ASCII (type 2) entry, a count of at most 4 decodes the
bytes inline at the entry's value field (entry offset + 8) and a count
of at least 5 decodes from `tiffStart + valueOffset`; in both cases the
decoded string is the byte run from that position, at most `count` long,
cut at the first NUL, and drawn only from bytes that exist in the
buffer. -/
theorem exif_c5_string_storage (view : List Nat)
    (entryOffset tiffStart : Nat) (le : Bool) (count vo : Nat)
    (ht : getUint16E view (entryOffset + 2) le = Except.ok 2)
    (hc : getUint32E view (entryOffset + 4) le = Except.ok count)
    (hv : getUint32E view (entryOffset + 8) le = Except.ok vo) :
    (count ≤ 4 →
      getStringFromEntry view entryOffset tiffStart le =
        Except.ok (((view.drop (entryOffset + 8)).take count).takeWhile
          (fun c => c != 0))) ∧
    (5 ≤ count →
      getStringFromEntry view entryOffset tiffStart le =
        Except.ok (((view.drop (tiffStart + vo)).take count).takeWhile
          (fun c => c != 0))) := by
  unfold getStringFromEntry
  rw [ht, hc]
  constructor <;> intro hcount
  · have h4 : count ≤ 4 := hcount
    simp only [hv]
    have he := readAscii_eq view (entryOffset + 8) count 0
    simp [h4, he]
  · have h4 : ¬ count ≤ 4 := by omega
    simp only [hv]
    have he := readAscii_eq view (tiffStart + vo) count 0
    simp [h4, he]

/-- C5 witness: on `bufInlineEntry` (count 3) the string "AB" is decoded
inline at the value field, and on `bufOffsetEntry` (count 5) the string
"ABCD" is decoded at the pointed-to offset 12. -/
theorem exif_c5_string_storage_witness :
    getStringFromEntry bufInlineEntry 0 0 true = Except.ok [0x41, 0x42] ∧
    getStringFromEntry bufOffsetEntry 0 0 false =
      Except.ok [0x41, 0x42, 0x43, 0x44] := by
  constructor
  · have h := (exif_c5_string_storage bufInlineEntry 0 0 true 3 16961
      rfl rfl rfl).1 (by decide)
    exact h.trans rfl
  · have h := (exif_c5_string_storage bufOffsetEntry 0 0 false 5 12
      rfl rfl rfl).2 (by decide)
    exact h.trans rfl

/-! ## C7: TIFF magic and first-IFD offset validation -/

/-- C7: a present parse result implies the byte-order read succeeded,
the 2 bytes after it (read with the selected endianness) equal the TIFF
magic 0x002A, and the 4-byte first-IFD offset read succeeded with a
value of at least 8; any buffer violating these yields absence. -/
theorem exif_c7_header_validation (view : List Nat) (tiffStart : Nat)
    (s : JStr) (h : parseExifChunk view tiffStart = some s) :
    ∃ bo, getUint16E view tiffStart false = Except.ok bo ∧
      getUint16E view (tiffStart + 2) (bo == 0x4949) = Except.ok 0x2A ∧
      ∃ off, getUint32E view (tiffStart + 4) (bo == 0x4949) =
        Except.ok off ∧ 8 ≤ off := by
  unfold parseExifChunk at h
  split at h
  case h_2 => cases h
  rename_i r hE
  subst h
  unfold parseExifChunkE parseExifBody at hE
  split at hE
  case h_1 => cases hE
  rename_i bo hbo
  refine ⟨bo, hbo, ?_⟩
  split at hE
  case h_1 => cases hE
  rename_i m hm
  split at hE
  · simp at hE
  rename_i hm2
  have hm42 : m = 0x2A := not_not.mp hm2
  subst hm42
  refine ⟨hm, ?_⟩
  split at hE
  case h_1 => cases hE
  rename_i off hoff
  split at hE
  · simp at hE
  rename_i hlt
  exact ⟨off, hoff, by omega⟩

/-- C7 witness: the successful parse of `bufTwoMakes` exhibits the
validated header fields. -/
theorem exif_c7_header_validation_witness :
    ∃ bo, getUint16E bufTwoMakes 0 false = Except.ok bo ∧
      getUint16E bufTwoMakes 2 (bo == 0x4949) = Except.ok 0x2A ∧
      ∃ off, getUint32E bufTwoMakes 4 (bo == 0x4949) =
        Except.ok off ∧ 8 ≤ off :=
  exif_c7_header_validation bufTwoMakes 0 [0x43, 0x44] rfl

/-! ## C4: composition of the device string -/

/-- C4: when at least one raw string is non-empty, the composed result
is present and equals: the trimmed Model alone when it starts with the
trimmed Make; otherwise the trimmed Make alone when the trimmed Model is
empty; otherwise trimmed Make, a single space, and trimmed Model. -/
theorem exif_c4_composition (make model : JStr)
    (h : make ≠ [] ∨ model ≠ []) :
    composeDevice make model = some (
      if startsWithCodes (jsTrim model) (jsTrim make) then jsTrim model
      else if jsTrim model = [] then jsTrim make
      else jsTrim make ++ 32 :: jsTrim model) := by
  unfold composeDevice
  rw [if_pos h]
  by_cases hs : startsWithCodes (jsTrim model) (jsTrim make)
  · simp only [hs, if_true]
  · have hne : jsTrim make ≠ [] := by
      intro h0
      rw [h0] at hs
      exact hs (startsWithCodes_nil _)
    simp only [hs, Bool.false_eq_true, if_false]
    by_cases hm : jsTrim model = []
    · rw [hm, if_pos rfl]
      exact congrArg some (jsTrim_append_space (jsTrim make)
        (jsTrim_fix make) (jsTrim_reverse_fix make) hne)
    · rw [if_neg hm]
      exact congrArg some (jsTrim_append_sep (jsTrim make) (jsTrim model)
        (jsTrim_fix make) hne (jsTrim_reverse_fix model) hm)

/-- C4 witness: Make "Canon" with Model "Canon EOS R5" composes to
"Canon EOS R5" (prefix rule), and Make "Apple" with Model
"iPhone 14 Pro" composes to "Apple iPhone 14 Pro". -/
theorem exif_c4_composition_witness :
    composeDevice [0x43, 0x61, 0x6E, 0x6F, 0x6E]
        [0x43, 0x61, 0x6E, 0x6F, 0x6E, 0x20, 0x45, 0x4F, 0x53, 0x20,
         0x52, 0x35] =
      some [0x43, 0x61, 0x6E, 0x6F, 0x6E, 0x20, 0x45, 0x4F, 0x53, 0x20,
        0x52, 0x35] ∧
    composeDevice [0x41, 0x70, 0x70, 0x6C, 0x65]
        [0x69, 0x50, 0x68, 0x6F, 0x6E, 0x65, 0x20, 0x31, 0x34, 0x20,
         0x50, 0x72, 0x6F] =
      some [0x41, 0x70, 0x70, 0x6C, 0x65, 0x20, 0x69, 0x50, 0x68, 0x6F,
        0x6E, 0x65, 0x20, 0x31, 0x34, 0x20, 0x50, 0x72, 0x6F] := by
  constructor
  · have h := exif_c4_composition [0x43, 0x61, 0x6E, 0x6F, 0x6E]
      [0x43, 0x61, 0x6E, 0x6F, 0x6E, 0x20, 0x45, 0x4F, 0x53, 0x20,
       0x52, 0x35] (Or.inl (by decide))
    exact h.trans (by decide)
  · have h := exif_c4_composition [0x41, 0x70, 0x70, 0x6C, 0x65]
      [0x69, 0x50, 0x68, 0x6F, 0x6E, 0x65, 0x20, 0x31, 0x34, 0x20,
       0x50, 0x72, 0x6F] (Or.inl (by decide))
    exact h.trans (by decide)

/-- A successful 16-bit read proves its two bytes are in bounds. -/
theorem getUint16E_ok_bound {view : List Nat} {off : Nat} {le : Bool}
    {x : Nat} (h : getUint16E view off le = Except.ok x) :
    off + 1 < view.length := by
  cases h1 : view[off + 1]? with
  | some b1 =>
    by_contra hge
    rw [List.getElem?_eq_none (by omega)] at h1
    cases h1
  | none =>
    exfalso
    cases h0 : view[off]? <;> simp [getUint16E, h0, h1] at h

/-! ## C8: the scanner skips non-Exif APP1 segments -/

/-- C8: at a marker position holding 0xFF 0xE1 with segment length L,
the scanner advances by exactly 2 + L when the 4-byte signature is not
"Exif", and hands the TIFF start `offset + 10` to the directory reader
when it is. -/
theorem exif_c8_app1_skip_and_handoff (view : List Nat)
    (offset L sig : Nat) (hlt : offset < view.length)
    (hff : getUint8E view offset = Except.ok 0xFF)
    (he1 : getUint8E view (offset + 1) = Except.ok 0xE1)
    (hlen : getUint16E view (offset + 2) false = Except.ok L)
    (hsig : getUint32E view (offset + 4) false = Except.ok sig) :
    (sig ≠ 0x45786966 →
      scanMarkers view offset = scanMarkers view (offset + 2 + L)) ∧
    (sig = 0x45786966 →
      scanMarkers view offset =
        Except.ok (parseExifChunk view (offset + 10))) := by
  constructor <;> intro hs
  · conv_lhs => rw [scanMarkers]
    simp [dif_pos hlt, hff, he1, hlen, hsig, hs]
  · conv_lhs => rw [scanMarkers]
    simp [dif_pos hlt, hff, he1, hlen, hsig, hs]

/-- C8 witness: on `bufTwoApp1` the scanner skips the non-Exif APP1 at
offset 2 (advancing by 2 + 8 to offset 12), hands off the Exif APP1
there with TIFF start 22, and the whole scan yields Make "AB". -/
theorem exif_c8_app1_skip_and_handoff_witness :
    scanMarkers bufTwoApp1 2 = Except.ok (some [0x41, 0x42]) := by
  have h1 : scanMarkers bufTwoApp1 2 = scanMarkers bufTwoApp1 12 :=
    (exif_c8_app1_skip_and_handoff bufTwoApp1 2 8 0x58585858 (by decide)
      rfl rfl rfl rfl).1 (by decide)
  have h2 : scanMarkers bufTwoApp1 12 =
      Except.ok (parseExifChunk bufTwoApp1 22) :=
    (exif_c8_app1_skip_and_handoff bufTwoApp1 12 32 0x45786966 (by decide)
      rfl rfl rfl rfl).2 rfl
  rw [h1, h2]
  rfl

/-! ## C9: termination of the marker scan -/

/-- C9: the marker scan consumes at least 2 bytes per iteration, so any
fuel exceeding half the remaining buffer length suffices: the
fuel-bounded loop never runs dry and computes the same (total) parse. -/
theorem exif_c9_scan_terminates (view : List Nat) :
    ∀ (fuel offset : Nat), view.length - offset < 2 * fuel →
      scanMarkersFuel fuel view offset = some (scanMarkers view offset) := by
  intro fuel
  induction fuel with
  | zero => intro offset h; omega
  | succ fuel ih =>
    intro offset h
    rw [scanMarkers]
    simp only [scanMarkersFuel]
    by_cases hlt : offset < view.length
    · rw [dif_pos hlt, if_pos hlt]
      cases hb : getUint8E view offset with
      | error e => simp [hb]
      | ok b =>
        by_cases hbf : b ≠ 0xFF
        · simp [hb, hbf]
        · push_neg at hbf
          subst hbf
          cases hm : getUint8E view (offset + 1) with
          | error e => simp [hb, hm]
          | ok marker =>
            by_cases hmE1 : marker = 0xE1
            · subst hmE1
              cases hcl : getUint16E view (offset + 2) false with
              | error e => simp [hb, hm, hcl]
              | ok chunkLength =>
                cases hsg : getUint32E view (offset + 4) false with
                | error e => simp [hb, hm, hcl, hsg]
                | ok sig =>
                  by_cases hex : sig = 0x45786966
                  · simp [hb, hm, hcl, hsg, hex]
                  · have hbound := getUint16E_ok_bound hcl
                    simp only [hb, hm, hcl, hsg]
                    simp [hex]
                    exact ih (offset + 2 + chunkLength) (by omega)
            · by_cases hmDA : marker = 0xDA
              · simp [hb, hm, hmE1, hmDA]
              · cases hcl : getUint16E view (offset + 2) false with
                | error e => simp [hb, hm, hmE1, hmDA, hcl]
                | ok chunkLength =>
                  have hbound := getUint16E_ok_bound hcl
                  simp [hb, hm, hmE1, hmDA, hcl]
                  exact ih (offset + 2 + chunkLength) (by omega)
    · rw [dif_neg hlt, if_neg hlt]

/-- C9 witness: with fuel exceeding half its length, the fuel-bounded
scan of `bufTwoApp1` computes the total scan. -/
theorem exif_c9_scan_terminates_witness :
    scanMarkersFuel 30 bufTwoApp1 2 = some (scanMarkers bufTwoApp1 2) :=
  exif_c9_scan_terminates bufTwoApp1 30 2 (by decide)
